import Mathlib

/-!
Verification of the p5 tool-uploader worker.

The definitions below are a shallow embedding of the TypeScript source:
`src/src/index.ts` (the routed two-endpoint worker) and
`src/unnamed/part_000` (the near-duplicate single-endpoint variant).
Strings are modelled as Lean `String` (lists of Unicode scalars);
`String.prototype.toLowerCase` is modelled by the ASCII `Char.toLower`
(the two agree on every character that can survive the `[^a-z0-9]`
replacement step, so the sanitizer's observable behaviour matches).
Remote GitHub calls are modelled by an explicit environment describing
the stored manifest and which calls fail, together with a trace of the
store operations the handler attempts, in order.
-/

/-- Models the regex character class `[a-z0-9]` used by `sanitizeString`. -/
def isAlnumChar (c : Char) : Bool :=
  (97 ≤ c.toNat && c.toNat ≤ 122) || (48 ≤ c.toNat && c.toNat ≤ 57)

/-- Models one global pass of `.replace(/[^a-z0-9]+/g, '-')`: each maximal
run of non-`[a-z0-9]` characters becomes a single hyphen.  The boolean
argument records whether we are currently inside such a run. -/
def replaceRunsAux : Bool → List Char → List Char
  | _, [] => []
  | inRun, c :: rest =>
    if isAlnumChar c then c :: replaceRunsAux false rest
    else if inRun then replaceRunsAux true rest
    else '-' :: replaceRunsAux true rest

/-- The `.replace(/[^a-z0-9]+/g, '-')` step of `sanitizeString`. -/
def replaceNonAlnumRuns (l : List Char) : List Char :=
  replaceRunsAux false l

/-- The `.replace(/^-+|-+$/g, '')` step of `sanitizeString`: drop the
leading run of hyphens and the trailing run of hyphens. -/
def trimDashes (l : List Char) : List Char :=
  (((l.dropWhile fun c => c == '-').reverse.dropWhile fun c => c == '-')).reverse

/-- The source's `sanitizeString(str, maxLength)` (identical in
`src/src/index.ts` and `src/unnamed/part_000`): lowercase, replace each
maximal non-`[a-z0-9]` run with `-`, trim leading/trailing hyphens, then
`substring(0, maxLength)`. -/
def sanitizeString (s : String) (maxLength : Nat) : String :=
  String.mk ((trimDashes (replaceNonAlnumRuns (s.data.map Char.toLower))).take maxLength)

/-- Pointwise image of a character under "replace non-alphanumerics by
hyphen", used by the spec-level description of the sanitizer. -/
def toHyphen (c : Char) : Char :=
  if isAlnumChar c then c else '-'

/-- Collapse consecutive hyphens to a single hyphen; the boolean records
whether the previous emitted character was a hyphen. -/
def collapseDashesAux : Bool → List Char → List Char
  | _, [] => []
  | prevDash, c :: rest =>
    if c == '-' then
      (if prevDash then collapseDashesAux true rest
       else '-' :: collapseDashesAux true rest)
    else c :: collapseDashesAux false rest

/-- Collapse consecutive hyphens to a single hyphen. -/
def collapseDashes (l : List Char) : List Char :=
  collapseDashesAux false l

/-- Spec-level rendering of the sanitizer, following the spec's words:
lowercase; replace every character outside `[a-z0-9]` with a hyphen and
collapse each maximal run to a single hyphen; trim leading and trailing
hyphens; only then truncate to `maxLength`, with no re-trim afterwards. -/
def sanitizeSpecWords (s : String) (maxLength : Nat) : String :=
  String.mk ((trimDashes (collapseDashes ((s.data.map Char.toLower).map toHyphen))).take maxLength)

/-- Boolean predicate: no two adjacent hyphens anywhere in the list. -/
def noTwoDashes : List Char → Bool
  | [] => true
  | [_] => true
  | a :: b :: rest => !(a == '-' && b == '-') && noTwoDashes (b :: rest)

/-- Alphabet used by `generateRandomString` in the source. -/
def randomChars : List Char := "abcdefghijklmnopqrstuvwxyz0123456789".data

/-- The source's `generateRandomString(length)`.  `Math.random()` draws
are modelled by an oracle `rand : Nat → Nat`; `Math.floor(Math.random()
* chars.length)` at iteration `i` becomes `rand i % 36`. -/
def generateRandomString (len : Nat) (rand : Nat → Nat) : String :=
  String.mk ((List.range len).map (fun i => randomChars.getD (rand i % 36) ' '))

/-- Models JavaScript `String.prototype.trim`, applied by the zod
`.trim()` transform on the validated string fields. -/
def jsTrim (s : String) : String :=
  String.mk (((s.data.dropWhile Char.isWhitespace).reverse.dropWhile Char.isWhitespace).reverse)

/-- Models `name.endsWith('.js')`. -/
def endsWithJs (s : String) : Bool :=
  match s.data.reverse with
  | 's' :: 'j' :: '.' :: _ => true
  | _ => false

/-- Models `name.replace(/\.js$/, '')`: strip one trailing `.js`. -/
def stripJsSuffix (s : String) : String :=
  match s.data.reverse with
  | 's' :: 'j' :: '.' :: rest => String.mk rest.reverse
  | _ => s

/-- Models `name.replace(/\.[^/.]+$/, '')`: strip a final dot followed by
one or more characters none of which is `/` or `.`. -/
def stripLastExt (s : String) : String :=
  let revl := s.data.reverse
  let ext := revl.takeWhile fun c => !(c == '.' || c == '/')
  if ext.length == 0 then s
  else
    match revl.drop ext.length with
    | '.' :: rest => String.mk rest.reverse
    | _ => s

/-- A `ToolManifestEntry` of the manifest JSON (src/src/index.ts). -/
structure ToolManifestEntry where
  id : String
  author : String
  name : String
  description : String
  model : String
  url : String
  uploadedAt : String
deriving DecidableEq, Repr

/-- An `OutputManifestEntry` of the manifest JSON (src/src/index.ts). -/
structure OutputManifestEntry where
  id : String
  toolId : String
  toolUrl : String
  url : String
  createdAt : String
deriving DecidableEq, Repr

/-- The parsed manifest JSON document.  Either top-level field may be
absent from the fetched JSON, which the `Option` records. -/
structure ManifestDoc where
  tools : Option (List ToolManifestEntry)
  outputs : Option (List OutputManifestEntry)
deriving DecidableEq, Repr

/-- A multipart `File` value: its `name`, declared MIME `type`
(field `mime` here) and contents. -/
structure FilePart where
  name : String
  mime : String
  content : String
deriving DecidableEq, Repr

/-- One issue of a zod validation failure: the failing form field and
its message. -/
structure Issue where
  issueField : String
  message : String
deriving DecidableEq, Repr

/-- The body of a worker JSON response: success payload, a 400
validation error with its issues, or a general error message. -/
inductive ApiResp where
  | ok (filename : String) (galleryUrl : String)
  | invalid (issues : List Issue)
  | failure (message : String)
deriving DecidableEq, Repr

/-- Deployment configuration (the `Env` bindings the handlers read). -/
structure Config where
  allowedOrigin : String
  owner : String
  repo : String
  slug : String
deriving DecidableEq, Repr

/-- The computed public gallery URL. -/
def galleryUrl (cfg : Config) : String :=
  "https://" ++ cfg.owner ++ ".github.io/" ++ cfg.repo ++ "/" ++ cfg.slug ++ "/"

/-- Remote-store environment for one request: the currently stored
manifest (decoded document and its sha version token), which remote
calls fail, and the version token the store would assign to a
successful manifest write. -/
structure StoreEnv where
  manifest : Option (ManifestDoc × String)
  putFileFails : Bool
  getManifestFails : Bool
  putManifestFails : Bool
  nextSha : String
deriving DecidableEq, Repr

/-- One attempted remote-store operation, in the order issued.
`deleteFile` is part of the store's API surface but, as the theorems
below show, is never issued by either workflow (no rollback). -/
inductive StoreOp where
  | putFile (path : String) (content : String) (message : String)
  | getFile (path : String)
  | putManifest (path : String) (doc : ManifestDoc) (sha : Option String)
  | deleteFile (path : String)
deriving DecidableEq, Repr

/-- True exactly on `deleteFile` operations. -/
def isDeleteOp : StoreOp → Bool
  | .deleteFile _ => true
  | _ => false

/-- True exactly on manifest write-back operations. -/
def isPutManifestOp : StoreOp → Bool
  | .putManifest _ _ _ => true
  | _ => false

/-- Outcome of one handled request: HTTP status, JSON body, the trace of
store operations attempted, and the stored manifest afterwards. -/
structure WorkflowOut where
  status : Nat
  body : ApiResp
  ops : List StoreOp
  manifestAfter : Option (ManifestDoc × String)
deriving DecidableEq, Repr

/-- The generic 500 body text used by both catch-all handlers. -/
def internalErrorMsg : String := "Internal server error. Please try again."

/-- One zod `z.string().min(1, msg).trim()` field check: a missing field
is an invalid-type issue, an empty string fails `min(1)` with the
schema's custom message. -/
def checkStr (fieldName : String) (msg : String) (v : Option String) : List Issue :=
  match v with
  | none => [⟨fieldName, "Invalid input: expected string"⟩]
  | some s => if 1 ≤ s.length then [] else [⟨fieldName, msg⟩]

/-- The `toolFile` check of `uploadInputSchema`: must be present
(instanceof File) and its name must end in `.js`. -/
def checkToolFile (v : Option FilePart) : List Issue :=
  match v with
  | none => [⟨"toolFile", "A JavaScript file is required"⟩]
  | some f =>
    if endsWithJs f.name then [] else [⟨"toolFile", "File must be a JavaScript file (.js)"⟩]

/-- The tool-upload multipart form as extracted by `formData.get`;
`none` models a missing field. -/
structure ToolForm where
  toolName : Option String
  toolDescription : Option String
  nickname : Option String
  modelUsed : Option String
  toolFile : Option FilePart
deriving DecidableEq, Repr

/-- `uploadInputSchema.safeParse`: the issues of every failing field, in
schema order (zod validates all object fields, not only the first). -/
def validateToolForm (f : ToolForm) : List Issue :=
  checkStr "toolName" "Tool name is required" f.toolName ++
  checkStr "toolDescription" "Description is required" f.toolDescription ++
  checkStr "nickname" "Nickname is required" f.nickname ++
  checkStr "modelUsed" "Model used is required" f.modelUsed ++
  checkToolFile f.toolFile

/-- The MIME allow-list of `uploadOutputSchema`. -/
def imageMimes : List String := ["image/png", "image/jpeg", "image/webp", "image/gif"]

/-- The `toolId` check of `uploadOutputSchema` (no `.trim()` here). -/
def checkToolId (v : Option String) : List Issue :=
  match v with
  | none => [⟨"toolId", "Invalid input: expected string"⟩]
  | some s => if 1 ≤ s.length then [] else [⟨"toolId", "Tool ID is required"⟩]

/-- The `outputFile` check of `uploadOutputSchema`: present and of an
allowed image MIME type. -/
def checkOutputFile (v : Option FilePart) : List Issue :=
  match v with
  | none => [⟨"outputFile", "An image file is required"⟩]
  | some f =>
    if imageMimes.contains f.mime then []
    else [⟨"outputFile", "File must be an image (PNG, JPEG, WebP, or GIF)"⟩]

/-- The output-upload multipart form. -/
structure OutputForm where
  toolId : Option String
  outputFile : Option FilePart
deriving DecidableEq, Repr

/-- `uploadOutputSchema.safeParse` issue list. -/
def validateOutputForm (f : OutputForm) : List Issue :=
  checkToolId f.toolId ++ checkOutputFile f.outputFile

/-- The fixed `mimeToExt` table of `handleOutputUpload`. -/
def mimeToExt (t : String) : Option String :=
  if t == "image/png" then some "png"
  else if t == "image/jpeg" then some "jpg"
  else if t == "image/webp" then some "webp"
  else if t == "image/gif" then some "gif"
  else none

/-- `manifest.tools?.find((t) => t.id === toolId)` from
`handleOutputUpload`: optional chaining yields `none` when the `tools`
field is absent. -/
def findTool (doc : ManifestDoc) (toolId : String) : Option ToolManifestEntry :=
  match doc.tools with
  | none => none
  | some ts => ts.find? fun t => t.id == toolId

/-- The read-modify-write core of `updateManifestWithTool` in
`src/src/index.ts`: synthesize a document with empty tools and outputs arrays and no sha
when the manifest is absent, default a missing `tools` field to `[]`,
and `unshift` the new entry.  Returns the document to write back and
the version token to write it with. -/
def updateManifestWithTool (current : Option (ManifestDoc × String))
    (e : ToolManifestEntry) : ManifestDoc × Option String :=
  match current with
  | some (d, v) => ({ d with tools := some (e :: d.tools.getD []) }, some v)
  | none => ({ tools := some [e], outputs := some [] }, none)

/-- The read-modify-write core of `updateManifestWithOutput` in
`src/src/index.ts`: same protocol against the `outputs` array. -/
def updateManifestWithOutput (current : Option (ManifestDoc × String))
    (e : OutputManifestEntry) : ManifestDoc × Option String :=
  match current with
  | some (d, v) => ({ d with outputs := some (e :: d.outputs.getD []) }, some v)
  | none => ({ tools := some [], outputs := some [e] }, none)

/-- The read-modify-write core of `updateManifest` in
`src/unnamed/part_000`.  Unlike `updateManifestWithTool` it has no
"ensure tools array exists" step: when the fetched document lacks a
`tools` field, `manifest.tools.unshift(...)` throws a TypeError, which
the embedding returns as `Except.error`.  When the manifest is absent it
synthesizes a document holding only an empty tools array (no `outputs` field). -/
def updateManifest (current : Option (ManifestDoc × String))
    (e : ToolManifestEntry) : Except String (ManifestDoc × Option String) :=
  match current with
  | some (d, v) =>
    match d.tools with
    | some ts => .ok ({ d with tools := some (e :: ts) }, some v)
    | none => .error "TypeError: manifest.tools is undefined"
  | none => .ok ({ tools := some [e], outputs := none }, none)

/-- The tools array currently stored, with the defaulting the read side
of `updateManifestWithTool` applies. -/
def storedToolsOf (current : Option (ManifestDoc × String)) : List ToolManifestEntry :=
  match current with
  | some (d, _) => d.tools.getD []
  | none => []

/-- `handleToolUpload` from `src/src/index.ts`, with the remote calls
interpreted against `env` and recorded in the returned trace.  The
source's try/catch around steps 2 to 6 is the three failure branches
returning the generic 500 response. -/
def handleToolUpload (cfg : Config) (env : StoreEnv) (f : ToolForm)
    (rand : Nat → Nat) (now : String) : WorkflowOut :=
  let issues := validateToolForm f
  if issues.isEmpty then
    let toolName := jsTrim (f.toolName.getD "")
    let toolDescription := jsTrim (f.toolDescription.getD "")
    let nickname := jsTrim (f.nickname.getD "")
    let modelUsed := jsTrim (f.modelUsed.getD "")
    let toolFile := f.toolFile.getD ⟨"", "", ""⟩
    let fileContent := toolFile.content
    let sanitizedAuthor := sanitizeString nickname 20
    let originalFilename := stripJsSuffix toolFile.name
    let sanitizedFilename := sanitizeString originalFilename 30
    let randomString := generateRandomString 6 rand
    let stem := sanitizedAuthor ++ "-" ++ sanitizedFilename ++ "-" ++ randomString
    let finalFilename := stem ++ ".js"
    let op1 := StoreOp.putFile (cfg.slug ++ "/tools/" ++ finalFilename) fileContent
      ("Add sketch by " ++ nickname)
    if env.putFileFails then ⟨500, .failure internalErrorMsg, [op1], env.manifest⟩
    else
      let manifestPath := cfg.slug ++ "/manifest.json"
      let op2 := StoreOp.getFile manifestPath
      if env.getManifestFails then ⟨500, .failure internalErrorMsg, [op1, op2], env.manifest⟩
      else
        let entry : ToolManifestEntry :=
          ⟨stem, nickname, toolName, toolDescription, modelUsed, "tools/" ++ finalFilename, now⟩
        let written := updateManifestWithTool env.manifest entry
        let op3 := StoreOp.putManifest manifestPath written.1 written.2
        if env.putManifestFails then
          ⟨500, .failure internalErrorMsg, [op1, op2, op3], env.manifest⟩
        else
          ⟨200, .ok finalFilename (galleryUrl cfg), [op1, op2, op3],
            some (written.1, env.nextSha)⟩
  else
    ⟨400, .invalid issues, [], env.manifest⟩

/-- `handleOutputUpload` from `src/src/index.ts`: validate, fetch the
manifest (404 when absent), look up the tool (404 when missing), upload
the binary, then `updateManifestWithOutput` (which re-reads the
manifest; within one request the second read returns the same stored
version). -/
def handleOutputUpload (cfg : Config) (env : StoreEnv) (f : OutputForm)
    (rand : Nat → Nat) (now : String) : WorkflowOut :=
  let issues := validateOutputForm f
  if issues.isEmpty then
    let toolId := f.toolId.getD ""
    let outputFile := f.outputFile.getD ⟨"", "", ""⟩
    let manifestPath := cfg.slug ++ "/manifest.json"
    let op1 := StoreOp.getFile manifestPath
    if env.getManifestFails then ⟨500, .failure internalErrorMsg, [op1], env.manifest⟩
    else
      match env.manifest with
      | none => ⟨404, .failure "Manifest not found", [op1], env.manifest⟩
      | some (doc, sha) =>
        match findTool doc toolId with
        | none => ⟨404, .failure "Tool not found", [op1], env.manifest⟩
        | some tool =>
          let randomString := generateRandomString 6 rand
          let fileExtension := (mimeToExt outputFile.mime).getD "undefined"
          let baseFilename := stripLastExt outputFile.name
          let sanitizedFilename := sanitizeString baseFilename 30
          let outputId := sanitizedFilename ++ "-" ++ randomString
          let finalFilename := outputId ++ "." ++ fileExtension
          let op2 := StoreOp.putFile (cfg.slug ++ "/outputs/" ++ finalFilename)
            outputFile.content ("Add output for " ++ toolId)
          if env.putFileFails then
            ⟨500, .failure internalErrorMsg, [op1, op2], env.manifest⟩
          else
            let op3 := StoreOp.getFile manifestPath
            let entry : OutputManifestEntry :=
              ⟨outputId, toolId, tool.url, "outputs/" ++ finalFilename, now⟩
            let written := updateManifestWithOutput (some (doc, sha)) entry
            let op4 := StoreOp.putManifest manifestPath written.1 written.2
            if env.putManifestFails then
              ⟨500, .failure internalErrorMsg, [op1, op2, op3, op4], env.manifest⟩
            else
              ⟨200, .ok finalFilename (galleryUrl cfg), [op1, op2, op3, op4],
                some (written.1, env.nextSha)⟩
  else
    ⟨400, .invalid issues, [], env.manifest⟩

/-- Routing outcome of the worker's `fetch` in `src/src/index.ts`.  The
route is decided from method, `Origin` header and pathname alone, before
the request body is ever touched: `request.formData()` is only called
inside the two handlers. -/
inductive Routed where
  | preflight
  | methodNotAllowed
  | forbidden
  | toolHandler
  | outputHandler
  | notFound
deriving DecidableEq, Repr

/-- The dispatch prefix of `fetch` in `src/src/index.ts`, in source
order: OPTIONS preflight, then the POST-only check, then the origin
check (`request.headers.get('Origin') || ''` compared to
`env.ALLOWED_ORIGIN`), then pathname routing. -/
def route (method : String) (origin : Option String) (path : String)
    (allowed : String) : Routed :=
  if method = "OPTIONS" then .preflight
  else if method ≠ "POST" then .methodNotAllowed
  else if origin.getD "" ≠ allowed then .forbidden
  else if path = "/upload/tool" then .toolHandler
  else if path = "/upload/output" then .outputHandler
  else .notFound

/-- Status code and error message of the non-handler routing outcomes. -/
def routedStatus : Routed → Option (Nat × Option String)
  | .preflight => some (204, none)
  | .methodNotAllowed => some (405, some "Method not allowed")
  | .forbidden => some (403, some "Origin not allowed")
  | .notFound => some (404, some "Not found")
  | _ => none

/-- Spec-side test that a string form field is invalid: missing or empty. -/
def strFieldInvalid (v : Option String) : Bool :=
  match v with
  | none => true
  | some s => s.length == 0

/-- Spec-side test that the tool payload is invalid: missing or not a
`.js` filename. -/
def toolFileInvalid (v : Option FilePart) : Bool :=
  match v with
  | none => true
  | some f => !(endsWithJs f.name)

/-- Spec-side enumeration of the failing fields of a tool-upload form,
in schema order. -/
def invalidToolFields (f : ToolForm) : List String :=
  (if strFieldInvalid f.toolName then ["toolName"] else []) ++
  (if strFieldInvalid f.toolDescription then ["toolDescription"] else []) ++
  (if strFieldInvalid f.nickname then ["nickname"] else []) ++
  (if strFieldInvalid f.modelUsed then ["modelUsed"] else []) ++
  (if toolFileInvalid f.toolFile then ["toolFile"] else [])

/-- Fixture configuration for the closed witness theorems. -/
def cfg0 : Config := ⟨"https://example.org", "owner0", "repo0", "ws1"⟩

/-- Fixture randomness oracle: draw `i` at step `i`. -/
def rand0 : Nat → Nat := fun i => i

/-- Fixture tool payload. -/
def file0 : FilePart := ⟨"My Sketch.js", "text/javascript", "let x = 1"⟩

/-- Fixture valid tool-upload form. -/
def form0 : ToolForm :=
  ⟨some "Mixer", some "Blends colors", some "Bob Lee", some "model-x", some file0⟩

/-- Fixture invalid tool-upload form: empty `toolName` and missing
`toolFile`. -/
def badForm0 : ToolForm := ⟨some "", some "Blends colors", some "Bob Lee", some "model-x", none⟩

/-- Fixture pre-existing manifest tool entry. -/
def t0 : ToolManifestEntry :=
  ⟨"bob-paint-abc123", "Bob", "Paint", "d", "m", "tools/bob-paint-abc123.js", "2024-01-01"⟩

/-- Fixture stored manifest document. -/
def d0 : ManifestDoc := ⟨some [t0], some []⟩

/-- Fixture new tool entry. -/
def e0 : ToolManifestEntry := ⟨"a-b-c", "A", "B", "C", "D", "tools/a-b-c.js", "t"⟩

/-- Fixture image payload. -/
def img0 : FilePart := ⟨"pic.png", "image/png", "bytes"⟩

/-- Fixture valid output-upload form referencing `t0`. -/
def outForm0 : OutputForm := ⟨some "bob-paint-abc123", some img0⟩

/-- Fixture store environment with the manifest `d0` present and every
remote call succeeding. -/
def envOk0 : StoreEnv := ⟨some (d0, "sha0"), false, false, false, "sha1"⟩

/-- Alphanumeric characters are not the hyphen. -/
theorem alnum_ne_dash {c : Char} (h : isAlnumChar c = true) : (c == '-') = false := by
  cases hc : c == '-'
  · rfl
  · have : c = '-' := by exact eq_of_beq hc
    subst this
    simp [isAlnumChar] at h

/-- `Char.toLower` fixes the characters of `[a-z0-9]`. -/
theorem toLower_eq_self_of_alnum {c : Char} (h : isAlnumChar c = true) : c.toLower = c := by
  simp only [isAlnumChar, Bool.or_eq_true, Bool.and_eq_true, decide_eq_true_eq] at h
  unfold Char.toLower
  rw [if_neg]
  omega

/-- `Char.toLower` fixes the hyphen. -/
theorem toLower_dash : Char.toLower '-' = '-' := by decide

/-- Output of the in-run variant of the replacement starts with an
alphanumeric character if nonempty. -/
theorem replaceRunsAux_true_head :
    ∀ (l : List Char) (c : Char),
      (replaceRunsAux true l).head? = some c → isAlnumChar c = true := by
  intro l
  induction l with
  | nil => intro c h; simp [replaceRunsAux] at h
  | cons a rest ih =>
    intro c h
    cases ha : isAlnumChar a with
    | true =>
      simp only [replaceRunsAux, ha, if_true, List.head?_cons, Option.some.injEq] at h
      exact h ▸ ha
    | false =>
      simp only [replaceRunsAux, ha, Bool.false_eq_true, if_false] at h
      exact ih c h

/-- Every character the replacement step emits is alphanumeric or a
hyphen. -/
theorem mem_replaceRunsAux :
    ∀ (l : List Char) (b : Bool) (c : Char),
      c ∈ replaceRunsAux b l → isAlnumChar c = true ∨ c = '-' := by
  intro l
  induction l with
  | nil => intro b c h; simp [replaceRunsAux] at h
  | cons a rest ih =>
    intro b c h
    cases ha : isAlnumChar a with
    | true =>
      simp only [replaceRunsAux, ha, if_true, List.mem_cons] at h
      cases h with
      | inl h => exact Or.inl (h ▸ ha)
      | inr h => exact ih false c h
    | false =>
      cases b with
      | true =>
        simp only [replaceRunsAux, ha, Bool.false_eq_true, if_false, if_true] at h
        exact ih true c h
      | false =>
        simp only [replaceRunsAux, ha, Bool.false_eq_true, if_false, List.mem_cons] at h
        cases h with
        | inl h => exact Or.inr h
        | inr h => exact ih true c h

/-- Unfolding of `noTwoDashes` on a cons in terms of the tail's head. -/
theorem noTwoDashes_cons (c : Char) (l : List Char) :
    noTwoDashes (c :: l) =
      ((match l.head? with
        | some x => !(c == '-' && x == '-')
        | none => true) && noTwoDashes l) := by
  cases l <;> simp [noTwoDashes]

/-- The tail of a list with no adjacent hyphens has none either. -/
theorem noTwoDashes_tail {c : Char} {l : List Char}
    (h : noTwoDashes (c :: l) = true) : noTwoDashes l = true := by
  rw [noTwoDashes_cons, Bool.and_eq_true] at h
  exact h.2

/-- The replacement step never emits two adjacent hyphens. -/
theorem noTwoDashes_replaceRunsAux :
    ∀ (l : List Char) (b : Bool), noTwoDashes (replaceRunsAux b l) = true := by
  intro l
  induction l with
  | nil => intro b; simp [replaceRunsAux, noTwoDashes]
  | cons a rest ih =>
    intro b
    cases ha : isAlnumChar a with
    | true =>
      simp only [replaceRunsAux, ha, if_true]
      rw [noTwoDashes_cons, Bool.and_eq_true]
      refine ⟨?_, ih false⟩
      cases hh : (replaceRunsAux false rest).head? with
      | none => rfl
      | some x => simp [alnum_ne_dash ha]
    | false =>
      cases b with
      | true =>
        simp only [replaceRunsAux, ha, Bool.false_eq_true, if_false, if_true]
        exact ih true
      | false =>
        simp only [replaceRunsAux, ha, Bool.false_eq_true, if_false]
        rw [noTwoDashes_cons, Bool.and_eq_true]
        refine ⟨?_, ih true⟩
        cases hh : (replaceRunsAux true rest).head? with
        | none => rfl
        | some x =>
          simp [alnum_ne_dash (replaceRunsAux_true_head rest x hh)]

/-- Dropping a prefix run preserves the no-adjacent-hyphens property. -/
theorem noTwoDashes_dropWhile (p : Char → Bool) :
    ∀ (l : List Char), noTwoDashes l = true → noTwoDashes (l.dropWhile p) = true := by
  intro l
  induction l with
  | nil => intro h; simpa [List.dropWhile] using h
  | cons c rest ih =>
    intro h
    rw [List.dropWhile]
    cases hp : p c with
    | true => exact ih (noTwoDashes_tail h)
    | false => exact h

/-- Appending one character in terms of the last element. -/
theorem noTwoDashes_append_singleton :
    ∀ (l : List Char) (c : Char),
      noTwoDashes (l ++ [c]) =
        (noTwoDashes l && (match l.getLast? with
          | some x => !(x == '-' && c == '-')
          | none => true)) := by
  intro l
  induction l with
  | nil => intro c; simp [noTwoDashes]
  | cons a l ih =>
    intro c
    cases l with
    | nil => simp [noTwoDashes]
    | cons b l' =>
      have hcons : (a :: b :: l') ++ [c] = a :: ((b :: l') ++ [c]) := rfl
      rw [hcons, noTwoDashes_cons, ih c, noTwoDashes_cons (l := b :: l')]
      have hh : ((b :: l') ++ [c]).head? = some b := rfl
      rw [hh]
      simp only [List.head?_cons, List.getLast?_cons_cons]
      cases hab : !(a == '-' && b == '-') <;>
        cases h1 : noTwoDashes (b :: l') <;>
        cases h2 : (match (b :: l').getLast? with
          | some x => !(x == '-' && c == '-')
          | none => true) <;> simp [hab, h1, h2]

/-- The no-adjacent-hyphens property is invariant under reversal. -/
theorem noTwoDashes_reverse :
    ∀ (l : List Char), noTwoDashes l.reverse = noTwoDashes l := by
  intro l
  induction l with
  | nil => rfl
  | cons c l ih =>
    rw [List.reverse_cons, noTwoDashes_append_singleton, ih, List.getLast?_reverse,
      noTwoDashes_cons]
    cases hh : l.head? with
    | none => simp
    | some x =>
      cases hx : (x == '-') <;> cases hc : (c == '-') <;> simp [hx, hc, Bool.and_comm]

/-- The head of a prefix obtained by `take` is the head of the list. -/
theorem head?_take {α : Type} :
    ∀ (l : List α) (n : Nat) (x : α), (l.take n).head? = some x → l.head? = some x := by
  intro l n x h
  cases l with
  | nil => simp [List.take] at h
  | cons c rest =>
    cases n with
    | zero => simp [List.take] at h
    | succ n => simpa [List.take] using h

/-- Truncation preserves the no-adjacent-hyphens property. -/
theorem noTwoDashes_take :
    ∀ (l : List Char) (n : Nat), noTwoDashes l = true → noTwoDashes (l.take n) = true := by
  intro l
  induction l with
  | nil => intro n h; simpa [List.take] using h
  | cons c rest ih =>
    intro n h
    cases n with
    | zero => rfl
    | succ n =>
      rw [List.take_succ_cons, noTwoDashes_cons, Bool.and_eq_true]
      rw [noTwoDashes_cons, Bool.and_eq_true] at h
      refine ⟨?_, ih n h.2⟩
      cases hh : (rest.take n).head? with
      | none => rfl
      | some x =>
        have := head?_take rest n x hh
        rw [this] at h
        exact h.1

/-- After dropping the leading hyphens the head is not a hyphen. -/
theorem head?_dropWhile_dash :
    ∀ (l : List Char) (x : Char),
      ((l.dropWhile fun c => c == '-').head? = some x) → (x == '-') = false := by
  intro l
  induction l with
  | nil => intro x h; simp [List.dropWhile] at h
  | cons c rest ih =>
    intro x h
    rw [List.dropWhile] at h
    cases hc : (c == '-') with
    | true => rw [hc] at h; exact ih x h
    | false =>
      rw [hc] at h
      simp only [List.head?_cons, Option.some.injEq] at h
      exact h ▸ hc

/-- Heads agree along list prefixes. -/
theorem head?_mono_of_pref {α : Type} {l₁ l₂ : List α} (h : l₁ <+: l₂) {x : α}
    (hh : l₁.head? = some x) : l₂.head? = some x := by
  obtain ⟨t, rfl⟩ := h
  cases l₁ with
  | nil => simp at hh
  | cons a l => simpa using hh

/-- The trimmed list does not start with a hyphen. -/
theorem trimDashes_head :
    ∀ (l : List Char) (x : Char),
      ((trimDashes l).head? = some x) → (x == '-') = false := by
  intro l x h
  unfold trimDashes at h
  have hsuffix := List.dropWhile_suffix (l := (l.dropWhile fun c => c == '-').reverse)
    (p := fun c => c == '-')
  have hpref := Iff.mpr List.reverse_prefix hsuffix
  rw [List.reverse_reverse] at hpref
  exact head?_dropWhile_dash l x (head?_mono_of_pref hpref h)

/-- Characters of the trimmed list come from the list. -/
theorem mem_trimDashes {c : Char} {l : List Char} (h : c ∈ trimDashes l) : c ∈ l := by
  unfold trimDashes at h
  rw [List.mem_reverse] at h
  have h2 := (List.dropWhile_suffix (p := fun c => c == '-')).subset h
  rw [List.mem_reverse] at h2
  exact (List.dropWhile_suffix (p := fun c => c == '-')).subset h2

/-- Trimming preserves the no-adjacent-hyphens property. -/
theorem noTwoDashes_trimDashes (l : List Char) (h : noTwoDashes l = true) :
    noTwoDashes (trimDashes l) = true := by
  unfold trimDashes
  rw [noTwoDashes_reverse]
  exact noTwoDashes_dropWhile _ _ (by rw [noTwoDashes_reverse]; exact noTwoDashes_dropWhile _ _ h)

/-- Dropping leading hyphens from a list that does not start with one is
the identity. -/
theorem dropWhile_dash_eq_self {l : List Char}
    (h : ∀ x, l.head? = some x → (x == '-') = false) :
    (l.dropWhile fun c => c == '-') = l := by
  cases l with
  | nil => rfl
  | cons c rest =>
    rw [List.dropWhile, h c rfl]

/-- Lowercasing fixes a list of sanitizer-output characters. -/
theorem map_toLower_eq_self {l : List Char}
    (h : ∀ c ∈ l, isAlnumChar c = true ∨ c = '-') : l.map Char.toLower = l := by
  induction l with
  | nil => rfl
  | cons c rest ih =>
    rw [List.map_cons, ih fun d hd => h d (List.mem_cons_of_mem c hd)]
    cases h c (List.mem_cons_self c rest) with
    | inl hc => rw [toLower_eq_self_of_alnum hc]
    | inr hc => rw [hc, toLower_dash]

/-- On lists of alphanumeric-or-hyphen characters with no adjacent
hyphens, the replacement step is the identity (and so is its in-run
variant when the list does not start with a hyphen). -/
theorem replaceRunsAux_fix :
    ∀ (l : List Char), (∀ c ∈ l, isAlnumChar c = true ∨ c = '-') →
      noTwoDashes l = true →
      (replaceRunsAux false l = l ∧
        (l.head? ≠ some '-' → replaceRunsAux true l = l)) := by
  intro l
  induction l with
  | nil => intro _ _; exact ⟨rfl, fun _ => rfl⟩
  | cons c rest ih =>
    intro hall hnd
    have hallRest : ∀ d ∈ rest, isAlnumChar d = true ∨ d = '-' :=
      fun d hd => hall d (List.mem_cons_of_mem c hd)
    have ihRest := ih hallRest (noTwoDashes_tail hnd)
    constructor
    · cases hc : isAlnumChar c with
      | true => rw [replaceRunsAux, if_pos hc, ihRest.1]
      | false =>
        have hcd : c = '-' := by
          cases hall c (List.mem_cons_self c rest) with
          | inl h => rw [h] at hc; exact absurd hc (by simp)
          | inr h => exact h
        subst hcd
        rw [replaceRunsAux, if_neg (by decide), if_neg (by decide)]
        have hhead : rest.head? ≠ some '-' := by
          intro hh
          rw [noTwoDashes_cons, hh] at hnd
          simp at hnd
        rw [ihRest.2 hhead]
    · intro hne
      have hc : isAlnumChar c = true := by
        cases hall c (List.mem_cons_self c rest) with
        | inl h => exact h
        | inr h => exact absurd (h ▸ rfl) hne
      rw [replaceRunsAux, if_pos hc, ihRest.1]

/-- Trimming a list with no leading and no trailing hyphen is the
identity. -/
theorem trimDashes_fix {l : List Char}
    (h1 : ∀ x, l.head? = some x → (x == '-') = false)
    (h2 : ∀ x, l.getLast? = some x → (x == '-') = false) :
    trimDashes l = l := by
  unfold trimDashes
  rw [dropWhile_dash_eq_self h1, dropWhile_dash_eq_self (by
    intro x hx
    rw [List.head?_reverse] at hx
    exact h2 x hx), List.reverse_reverse]

/-- The three structural facts about the character data of every
`sanitizeString` result: all characters are in `[a-z0-9-]`, no two
hyphens are adjacent, and the first character is not a hyphen. -/
theorem sanitize_data_props (s : String) (n : Nat) :
    (∀ c ∈ (sanitizeString s n).data, isAlnumChar c = true ∨ c = '-') ∧
      noTwoDashes (sanitizeString s n).data = true ∧
      (∀ x, (sanitizeString s n).data.head? = some x → (x == '-') = false) := by
  refine ⟨?_, ?_, ?_⟩
  · intro c hc
    have h1 := List.take_subset n _ hc
    exact mem_replaceRunsAux _ false c (mem_trimDashes h1)
  · exact noTwoDashes_take _ n (noTwoDashes_trimDashes _ (noTwoDashes_replaceRunsAux _ false))
  · intro x hx
    exact trimDashes_head _ x (head?_take _ n x hx)

/-- The run replacement agrees with the spec-level pointwise map
followed by hyphen collapsing. -/
theorem replaceRunsAux_eq_collapse :
    ∀ (l : List Char) (b : Bool), replaceRunsAux b l = collapseDashesAux b (l.map toHyphen) := by
  intro l
  induction l with
  | nil => intro b; rfl
  | cons c rest ih =>
    intro b
    cases hc : isAlnumChar c with
    | true =>
      simp [replaceRunsAux, collapseDashesAux, hc, toHyphen, alnum_ne_dash hc, ih]
    | false =>
      cases b <;> simp [replaceRunsAux, collapseDashesAux, hc, toHyphen, ih]

/-- C1 (counterexample): `sanitize` is not idempotent on its own output
for every input: with `s = "a b"` and `n = 2` the first pass yields
`"a-"` (truncation cuts right after the hyphen) and the second pass
trims that hyphen, yielding `"a"`. -/
theorem sanitize_idem_counterexample :
    ¬ (sanitizeString (sanitizeString "a b" 2) 2 = sanitizeString "a b" 2) := by decide

/-- C1 (amended): `sanitize(sanitize(s, n), n) == sanitize(s, n)` for
every `s` and every `n ≥ 0` whose first pass does not end in a hyphen;
when truncation cuts just after a hyphen the second pass trims that
trailing hyphen, so idempotence holds exactly away from that case. -/
theorem sanitize_idem_of_no_trailing_dash (s : String) (n : Nat)
    (h : (sanitizeString s n).data.getLast? ≠ some '-') :
    sanitizeString (sanitizeString s n) n = sanitizeString s n := by
  obtain ⟨hmem, hnd, hhead⟩ := sanitize_data_props s n
  have hlast : ∀ x, (sanitizeString s n).data.getLast? = some x → (x == '-') = false := by
    intro x hx
    cases hxd : (x == '-') with
    | false => rfl
    | true =>
      have hxe : x = '-' := eq_of_beq hxd
      subst hxe
      exact absurd hx h
  have hlen : (sanitizeString s n).data.length ≤ n := by
    show ((trimDashes (replaceNonAlnumRuns (s.data.map Char.toLower))).take n).length ≤ n
    rw [List.length_take]
    exact Nat.min_le_left _ _
  show String.mk
    ((trimDashes (replaceNonAlnumRuns ((sanitizeString s n).data.map Char.toLower))).take n) =
      sanitizeString s n
  rw [map_toLower_eq_self hmem]
  show String.mk ((trimDashes (replaceRunsAux false (sanitizeString s n).data)).take n) = _
  rw [(replaceRunsAux_fix _ hmem hnd).1, trimDashes_fix hhead hlast,
    List.take_of_length_le hlen]

/-- C1 witness: the amended idempotence at the concrete input
`("Hello World!!", 30)`. -/
theorem sanitize_idem_of_no_trailing_dash_witness :
    sanitizeString (sanitizeString "Hello World!!" 30) 30 = sanitizeString "Hello World!!" 30 :=
  sanitize_idem_of_no_trailing_dash "Hello World!!" 30 (by decide)

/-- C5: `sanitizeString` lowercases, replaces every maximal run of
characters outside `[a-z0-9]` with a single hyphen, trims leading and
trailing hyphens, and only then truncates to `maxLength` with no re-trim
(the staged spec-level description `sanitizeSpecWords`); in particular
the three concrete examples of the spec hold. -/
theorem sanitize_matches_spec_description :
    (∀ (s : String) (n : Nat), sanitizeString s n = sanitizeSpecWords s n) ∧
      sanitizeString "Hello World!!" 30 = "hello-world" ∧
      sanitizeString "___" 10 = "" ∧
      sanitizeString "abcdefghij" 5 = "abcde" := by
  refine ⟨?_, by decide, by decide, by decide⟩
  intro s n
  unfold sanitizeString sanitizeSpecWords replaceNonAlnumRuns collapseDashes
  rw [replaceRunsAux_eq_collapse]

/-- C9: every `sanitizeString` result has length at most `maxLength`,
all of its characters lie in `[a-z0-9-]`, and it never begins with a
hyphen; it may end with one when truncation cuts just after a hyphen,
as `sanitize("a b", 2) = "a-"` shows. -/
theorem sanitize_output_invariants (s : String) (n : Nat) :
    (sanitizeString s n).length ≤ n ∧
      (sanitizeString s n).data.all (fun c => isAlnumChar c || c == '-') = true ∧
      (sanitizeString s n).data.head? ≠ some '-' ∧
      sanitizeString "a b" 2 = "a-" := by
  obtain ⟨hmem, _, hhead⟩ := sanitize_data_props s n
  refine ⟨?_, ?_, ?_, by decide⟩
  · show ((trimDashes (replaceNonAlnumRuns (s.data.map Char.toLower))).take n).length ≤ n
    rw [List.length_take]
    exact Nat.min_le_left _ _
  · rw [List.all_eq_true]
    intro c hc
    cases hmem c hc with
    | inl h => simp [h]
    | inr h => simp [h]
  · intro hx
    have := hhead '-' hx
    simp at this

/-- The tools array written by `updateManifestWithTool` is always the
new entry prepended to the stored (defaulted) tools array. -/
theorem updateManifestWithTool_tools (c : Option (ManifestDoc × String))
    (e : ToolManifestEntry) :
    (updateManifestWithTool c e).1.tools = some (e :: storedToolsOf c) := by
  cases c with
  | none => rfl
  | some p => cases p with | mk d v => rfl

/-- C2 (counterexample): the `updateManifest` variant in
`src/unnamed/part_000` does not default a missing `tools` field: on a
fetched manifest document that lacks `tools` (here one holding only an
`outputs` field) the prepend step throws a TypeError instead of being
applied to an existing array, so the tool-manifest update operation can
crash on a fetched manifest document. -/
theorem updateManifest_missing_tools_crash :
    updateManifest (some (⟨none, some []⟩, "v1")) e0 =
      .error "TypeError: manifest.tools is undefined" := rfl

/-- C2 (amended): `updateManifestWithTool` in `src/src/index.ts` never
crashes on any fetched manifest document: when the manifest file is
absent it synthesizes a document with empty tools and outputs arrays
and no version token, and when the fetched document lacks a `tools`
field it defaults `tools` to the empty array before prepending, so the
prepend step is always applied to an existing array.  The near-duplicate
`updateManifest` in `src/unnamed/part_000` lacks the defaulting step and
throws when the fetched document has no `tools` field. -/
theorem updateManifestWithTool_total_characterization
    (current : Option (ManifestDoc × String)) (e : ToolManifestEntry) :
    (updateManifestWithTool current e).1.tools = some (e :: storedToolsOf current) ∧
      (updateManifestWithTool current e).2 = current.map (fun p => p.2) ∧
      (current = none →
        updateManifestWithTool current e = (⟨some [e], some []⟩, none)) ∧
      (∀ d v, current = some (d, v) →
        (updateManifestWithTool current e).1.outputs = d.outputs) := by
  refine ⟨updateManifestWithTool_tools current e, ?_, ?_, ?_⟩
  · cases current with
    | none => rfl
    | some p => cases p with | mk d v => rfl
  · intro h
    subst h
    rfl
  · intro d v h
    subst h
    rfl

/-- C2 witness: the amended characterization applied at the absent
manifest, discharging the `current = none` hypothesis. -/
theorem updateManifestWithTool_total_characterization_witness :
    (updateManifestWithTool none e0).1.tools = some [e0] ∧
      updateManifestWithTool none e0 = (⟨some [e0], some []⟩, none) := by
  have h := updateManifestWithTool_total_characterization none e0
  exact ⟨h.1, h.2.2.1 rfl⟩

/-- The issue fields of one string-field check. -/
theorem checkStr_fields (n m : String) (v : Option String) :
    (checkStr n m v).map Issue.issueField = if strFieldInvalid v then [n] else [] := by
  cases v with
  | none => rfl
  | some s =>
    by_cases h : 1 ≤ s.length
    · have hz : (s.length == 0) = false := by
        simp only [beq_eq_false_iff_ne, ne_eq]
        omega
      simp [checkStr, strFieldInvalid, h, hz]
    · have hz : (s.length == 0) = true := by
        simp only [beq_iff_eq]
        omega
      simp [checkStr, strFieldInvalid, h, hz]

/-- The issue fields of the tool-file check. -/
theorem checkToolFile_fields (v : Option FilePart) :
    (checkToolFile v).map Issue.issueField = if toolFileInvalid v then ["toolFile"] else [] := by
  cases v with
  | none => rfl
  | some f =>
    cases h : endsWithJs f.name <;> simp [checkToolFile, toolFileInvalid, h]

/-- C6: a tool upload whose form has one or more invalid fields (missing
or empty string fields, a missing payload, or a payload whose name does
not end in `.js`) is answered with HTTP 400 carrying issues that
enumerate every failing field in schema order, not only the first; no
remote-store call is made and the stored manifest is untouched. -/
theorem toolUpload_validation_enumerates_all (f : ToolForm) :
    (validateToolForm f).map Issue.issueField = invalidToolFields f ∧
      (∀ (cfg : Config) (env : StoreEnv) (rand : Nat → Nat) (now : String),
        validateToolForm f ≠ [] →
        handleToolUpload cfg env f rand now =
          ⟨400, .invalid (validateToolForm f), [], env.manifest⟩) := by
  constructor
  · simp only [validateToolForm, invalidToolFields, List.map_append,
      checkStr_fields, checkToolFile_fields]
  · intro cfg env rand now hne
    have hemp : (validateToolForm f).isEmpty = false := by
      cases hv : validateToolForm f with
      | nil => exact absurd hv hne
      | cons a l => rfl
    simp [handleToolUpload, hemp]

/-- C6 witness: a form with an empty `toolName` and a missing `toolFile`
produces issues naming both failing fields, a 400 response and no store
operations. -/
theorem toolUpload_validation_enumerates_all_witness :
    (validateToolForm badForm0).map Issue.issueField = ["toolName", "toolFile"] ∧
      handleToolUpload cfg0 envOk0 badForm0 rand0 "2024-01-02" =
        ⟨400, .invalid (validateToolForm badForm0), [], envOk0.manifest⟩ := by
  constructor
  · rw [(toolUpload_validation_enumerates_all badForm0).1]
    decide
  · exact (toolUpload_validation_enumerates_all badForm0).2 cfg0 envOk0 rand0 "2024-01-02"
      (by decide)

/-- Every generated random id has exactly the requested length. -/
theorem generateRandomString_length (len : Nat) (rand : Nat → Nat) :
    (generateRandomString len rand).length = len := by
  show ((List.range len).map _).length = len
  rw [List.length_map, List.length_range]

/-- Every character of a generated random id is drawn from the
lowercase-alphanumeric alphabet. -/
theorem generateRandomString_charset (len : Nat) (rand : Nat → Nat) :
    (generateRandomString len rand).data.all (fun c => randomChars.contains c) = true := by
  rw [List.all_eq_true]
  show ∀ c ∈ (List.range len).map (fun i => randomChars.getD (rand i % 36) ' '), _
  intro c hc
  rw [List.mem_map] at hc
  obtain ⟨i, _, rfl⟩ := hc
  have hlt : rand i % 36 < randomChars.length := Nat.mod_lt _ (by decide)
  simp only [List.getD_eq_getElem?_getD, List.getElem?_eq_getElem hlt, Option.getD_some]
  exact List.elem_iff.mpr (List.getElem_mem hlt)

/-- C3: a valid tool upload against a stored manifest, with every remote
call succeeding, writes back exactly the previously stored tools array
with one new entry prepended at index 0; the entry's id is
`sanitize(nickname, 20)`-`sanitize(filename without .js, 30)`-`random`
where the random part is a string of six lowercase-alphanumeric
characters, and the outputs array and all pre-existing tool entries are
unchanged. -/
theorem toolUpload_prepends_exactly_one
    (cfg : Config) (d : ManifestDoc) (v nxt : String) (ts : List ToolManifestEntry)
    (tn td nick mu : String) (file : FilePart) (rand : Nat → Nat) (now : String)
    (htools : d.tools = some ts)
    (hvalid : validateToolForm ⟨some tn, some td, some nick, some mu, some file⟩ = []) :
    (handleToolUpload cfg ⟨some (d, v), false, false, false, nxt⟩
        ⟨some tn, some td, some nick, some mu, some file⟩ rand now).status = 200 ∧
      (handleToolUpload cfg ⟨some (d, v), false, false, false, nxt⟩
          ⟨some tn, some td, some nick, some mu, some file⟩ rand now).manifestAfter =
        some (ManifestDoc.mk (some
          (⟨sanitizeString (jsTrim nick) 20 ++ "-" ++
              sanitizeString (stripJsSuffix file.name) 30 ++ "-" ++
              generateRandomString 6 rand,
            jsTrim nick, jsTrim tn, jsTrim td, jsTrim mu,
            "tools/" ++ (sanitizeString (jsTrim nick) 20 ++ "-" ++
              sanitizeString (stripJsSuffix file.name) 30 ++ "-" ++
              generateRandomString 6 rand ++ ".js"), now⟩ :: ts)) d.outputs, nxt) ∧
      (generateRandomString 6 rand).length = 6 ∧
      (generateRandomString 6 rand).data.all (fun c => randomChars.contains c) = true := by
  have hemp : (validateToolForm ⟨some tn, some td, some nick, some mu, some file⟩).isEmpty
      = true := by
    rw [hvalid]
    rfl
  refine ⟨?_, ?_, generateRandomString_length 6 rand, generateRandomString_charset 6 rand⟩
  · simp [handleToolUpload, hemp]
  · simp [handleToolUpload, hemp, updateManifestWithTool, htools]

/-- C3 witness: a concrete successful upload returns HTTP 200. -/
theorem toolUpload_prepends_exactly_one_witness :
    (handleToolUpload cfg0 ⟨some (d0, "sha0"), false, false, false, "sha1"⟩
        form0 rand0 "now0").status = 200 := by
  have h := toolUpload_prepends_exactly_one cfg0 d0 "sha0" "sha1" [t0]
    "Mixer" "Blends colors" "Bob Lee" "model-x" file0 rand0 "now0" rfl (by decide)
  exact h.1

/-- C4: an output upload that passes validation is answered with 404
"Manifest not found" when the manifest file is absent and with 404
"Tool not found" when no stored tool has the submitted id; in both
cases the trace holds only the manifest read, so nothing is written to
the content store and the stored manifest is unchanged. -/
theorem outputUpload_notfound_no_side_effects
    (cfg : Config) (nxt : String) (tid : String) (file : FilePart)
    (rand : Nat → Nat) (now : String) (pf pm : Bool)
    (hvalid : validateOutputForm ⟨some tid, some file⟩ = []) :
    (handleOutputUpload cfg ⟨none, pf, false, pm, nxt⟩ ⟨some tid, some file⟩ rand now =
        ⟨404, .failure "Manifest not found",
          [.getFile (cfg.slug ++ "/manifest.json")], none⟩) ∧
      (∀ (d : ManifestDoc) (v : String), findTool d tid = none →
        handleOutputUpload cfg ⟨some (d, v), pf, false, pm, nxt⟩
            ⟨some tid, some file⟩ rand now =
          ⟨404, .failure "Tool not found",
            [.getFile (cfg.slug ++ "/manifest.json")], some (d, v)⟩) := by
  have hemp : (validateOutputForm ⟨some tid, some file⟩).isEmpty = true := by
    rw [hvalid]
    rfl
  constructor
  · simp [handleOutputUpload, hemp]
  · intro d v hfind
    simp [handleOutputUpload, hemp, hfind]

/-- C4 witness: both 404 branches at concrete inputs: the manifest file
absent, and a manifest whose tools array lacks the submitted id. -/
theorem outputUpload_notfound_no_side_effects_witness :
    (handleOutputUpload cfg0 ⟨none, false, false, false, "sha1"⟩ outForm0 rand0 "now0" =
        ⟨404, .failure "Manifest not found",
          [.getFile (cfg0.slug ++ "/manifest.json")], none⟩) ∧
      (handleOutputUpload cfg0 ⟨some (⟨some [], some []⟩, "sha0"), false, false, false, "sha1"⟩
          outForm0 rand0 "now0" =
        ⟨404, .failure "Tool not found",
          [.getFile (cfg0.slug ++ "/manifest.json")], some (⟨some [], some []⟩, "sha0")⟩) := by
  have h := outputUpload_notfound_no_side_effects cfg0 "sha1" "bob-paint-abc123" img0
    rand0 "now0" false false (by decide)
  exact ⟨h.1, h.2 ⟨some [], some []⟩ "sha0" (by decide)⟩

/-- C7: once validation has passed, any failing remote call in the tool
workflow (artifact write, manifest read, or the version-checked manifest
write-back, e.g. on an optimistic-concurrency conflict) yields HTTP 500
with the fixed generic message that does not reveal the cause; the
failing call is attempted exactly once (no retry: every trace holds at
most one manifest write), earlier side effects are not rolled back (the
artifact write stays in the trace and no delete is ever issued), and
the stored manifest is unchanged. -/
theorem storeFailure_internal_error_no_retry
    (cfg : Config) (m : Option (ManifestDoc × String)) (nxt : String)
    (pf gm pm : Bool) (tn td nick mu : String) (file : FilePart)
    (rand : Nat → Nat) (now : String)
    (hvalid : validateToolForm ⟨some tn, some td, some nick, some mu, some file⟩ = []) :
    ((handleToolUpload cfg ⟨m, pf, gm, pm, nxt⟩
          ⟨some tn, some td, some nick, some mu, some file⟩ rand now).ops.filter
        isDeleteOp = [] ∧
      ((handleToolUpload cfg ⟨m, pf, gm, pm, nxt⟩
            ⟨some tn, some td, some nick, some mu, some file⟩ rand now).ops.filter
          isPutManifestOp).length ≤ 1) ∧
      (pf = true →
        handleToolUpload cfg ⟨m, pf, gm, pm, nxt⟩
            ⟨some tn, some td, some nick, some mu, some file⟩ rand now =
          ⟨500, .failure internalErrorMsg,
            [.putFile (cfg.slug ++ "/tools/" ++
                (sanitizeString (jsTrim nick) 20 ++ "-" ++
                  sanitizeString (stripJsSuffix file.name) 30 ++ "-" ++
                  generateRandomString 6 rand ++ ".js")) file.content
              ("Add sketch by " ++ jsTrim nick)], m⟩) ∧
      (pf = false → gm = true →
        handleToolUpload cfg ⟨m, pf, gm, pm, nxt⟩
            ⟨some tn, some td, some nick, some mu, some file⟩ rand now =
          ⟨500, .failure internalErrorMsg,
            [.putFile (cfg.slug ++ "/tools/" ++
                (sanitizeString (jsTrim nick) 20 ++ "-" ++
                  sanitizeString (stripJsSuffix file.name) 30 ++ "-" ++
                  generateRandomString 6 rand ++ ".js")) file.content
              ("Add sketch by " ++ jsTrim nick),
             .getFile (cfg.slug ++ "/manifest.json")], m⟩) ∧
      (pf = false → gm = false → pm = true →
        handleToolUpload cfg ⟨m, pf, gm, pm, nxt⟩
            ⟨some tn, some td, some nick, some mu, some file⟩ rand now =
          ⟨500, .failure internalErrorMsg,
            [.putFile (cfg.slug ++ "/tools/" ++
                (sanitizeString (jsTrim nick) 20 ++ "-" ++
                  sanitizeString (stripJsSuffix file.name) 30 ++ "-" ++
                  generateRandomString 6 rand ++ ".js")) file.content
              ("Add sketch by " ++ jsTrim nick),
             .getFile (cfg.slug ++ "/manifest.json"),
             .putManifest (cfg.slug ++ "/manifest.json")
               (updateManifestWithTool m
                 ⟨sanitizeString (jsTrim nick) 20 ++ "-" ++
                     sanitizeString (stripJsSuffix file.name) 30 ++ "-" ++
                     generateRandomString 6 rand,
                   jsTrim nick, jsTrim tn, jsTrim td, jsTrim mu,
                   "tools/" ++ (sanitizeString (jsTrim nick) 20 ++ "-" ++
                     sanitizeString (stripJsSuffix file.name) 30 ++ "-" ++
                     generateRandomString 6 rand ++ ".js"), now⟩).1
               (updateManifestWithTool m
                 ⟨sanitizeString (jsTrim nick) 20 ++ "-" ++
                     sanitizeString (stripJsSuffix file.name) 30 ++ "-" ++
                     generateRandomString 6 rand,
                   jsTrim nick, jsTrim tn, jsTrim td, jsTrim mu,
                   "tools/" ++ (sanitizeString (jsTrim nick) 20 ++ "-" ++
                     sanitizeString (stripJsSuffix file.name) 30 ++ "-" ++
                     generateRandomString 6 rand ++ ".js"), now⟩).2], m⟩) := by
  have hemp : (validateToolForm ⟨some tn, some td, some nick, some mu, some file⟩).isEmpty
      = true := by
    rw [hvalid]
    rfl
  refine ⟨?_, ?_, ?_, ?_⟩
  · cases pf <;> cases gm <;> cases pm <;>
      simp [handleToolUpload, hemp, isDeleteOp, isPutManifestOp]
  · intro h1
    subst h1
    simp [handleToolUpload, hemp]
  · intro h1 h2
    subst h1
    subst h2
    simp [handleToolUpload, hemp]
  · intro h1 h2 h3
    subst h1
    subst h2
    subst h3
    simp [handleToolUpload, hemp]

/-- C7 witness: a manifest write-back rejection (version conflict) at a
concrete input returns status 500 with the generic message and leaves
the stored manifest unchanged. -/
theorem storeFailure_internal_error_no_retry_witness :
    (handleToolUpload cfg0 ⟨some (d0, "sha0"), false, false, true, "sha1"⟩
        form0 rand0 "now0").status = 500 ∧
      (handleToolUpload cfg0 ⟨some (d0, "sha0"), false, false, true, "sha1"⟩
          form0 rand0 "now0").body = .failure internalErrorMsg ∧
      (handleToolUpload cfg0 ⟨some (d0, "sha0"), false, false, true, "sha1"⟩
          form0 rand0 "now0").manifestAfter = some (d0, "sha0") := by
  have h := storeFailure_internal_error_no_retry cfg0 (some (d0, "sha0")) "sha1"
    false false true "Mixer" "Blends colors" "Bob Lee" "model-x" file0 rand0 "now0"
    (by decide)
  have h5 := h.2.2.2 rfl rfl rfl
  exact ⟨congrArg WorkflowOut.status h5, congrArg WorkflowOut.body h5,
    congrArg WorkflowOut.manifestAfter h5⟩

/-- C10: on every successful upload of either workflow the returned
filename, the new manifest entry's id and the entry's url are mutually
coherent: the filename equals the entry's id followed by a dot and the
extension (`js` for tools, the MIME-mapped extension for outputs), the
entry's url equals `tools/` (respectively `outputs/`) followed by that
filename, and the storage path written to the content store is the
namespace slug followed by that same url. -/
theorem upload_success_coherence :
    (∀ (cfg : Config) (m : Option (ManifestDoc × String)) (nxt : String)
        (tn td nick mu : String) (file : FilePart) (rand : Nat → Nat) (now : String),
      validateToolForm ⟨some tn, some td, some nick, some mu, some file⟩ = [] →
      ∃ (nd : ManifestDoc) (entry : ToolManifestEntry) (rest : List ToolManifestEntry),
        (handleToolUpload cfg ⟨m, false, false, false, nxt⟩
            ⟨some tn, some td, some nick, some mu, some file⟩ rand now).manifestAfter =
          some (nd, nxt) ∧
        nd.tools = some (entry :: rest) ∧
        (handleToolUpload cfg ⟨m, false, false, false, nxt⟩
            ⟨some tn, some td, some nick, some mu, some file⟩ rand now).body =
          .ok (entry.id ++ ".js") (galleryUrl cfg) ∧
        entry.url = "tools/" ++ (entry.id ++ ".js") ∧
        (handleToolUpload cfg ⟨m, false, false, false, nxt⟩
            ⟨some tn, some td, some nick, some mu, some file⟩ rand now).ops.head? =
          some (.putFile (cfg.slug ++ "/tools/" ++ (entry.id ++ ".js")) file.content
            ("Add sketch by " ++ jsTrim nick))) ∧
    (∀ (cfg : Config) (d : ManifestDoc) (v nxt : String) (tid : String) (file : FilePart)
        (rand : Nat → Nat) (now : String) (tool : ToolManifestEntry),
      validateOutputForm ⟨some tid, some file⟩ = [] →
      findTool d tid = some tool →
      ∃ (nd : ManifestDoc) (entry : OutputManifestEntry) (rest : List OutputManifestEntry),
        (handleOutputUpload cfg ⟨some (d, v), false, false, false, nxt⟩
            ⟨some tid, some file⟩ rand now).manifestAfter = some (nd, nxt) ∧
        nd.outputs = some (entry :: rest) ∧
        (handleOutputUpload cfg ⟨some (d, v), false, false, false, nxt⟩
            ⟨some tid, some file⟩ rand now).body =
          .ok (entry.id ++ "." ++ (mimeToExt file.mime).getD "undefined") (galleryUrl cfg) ∧
        entry.url =
          "outputs/" ++ (entry.id ++ "." ++ (mimeToExt file.mime).getD "undefined") ∧
        entry.toolId = tid ∧ entry.toolUrl = tool.url ∧
        (handleOutputUpload cfg ⟨some (d, v), false, false, false, nxt⟩
            ⟨some tid, some file⟩ rand now).ops =
          [.getFile (cfg.slug ++ "/manifest.json"),
           .putFile (cfg.slug ++ "/outputs/" ++
               (entry.id ++ "." ++ (mimeToExt file.mime).getD "undefined")) file.content
             ("Add output for " ++ tid),
           .getFile (cfg.slug ++ "/manifest.json"),
           .putManifest (cfg.slug ++ "/manifest.json") nd (some v)]) := by
  constructor
  · intro cfg m nxt tn td nick mu file rand now hvalid
    have hemp : (validateToolForm ⟨some tn, some td, some nick, some mu, some file⟩).isEmpty
        = true := by
      rw [hvalid]
      rfl
    have hout : handleToolUpload cfg ⟨m, false, false, false, nxt⟩
        ⟨some tn, some td, some nick, some mu, some file⟩ rand now =
        ⟨200,
          .ok (sanitizeString (jsTrim nick) 20 ++ "-" ++
              sanitizeString (stripJsSuffix file.name) 30 ++ "-" ++
              generateRandomString 6 rand ++ ".js") (galleryUrl cfg),
          [.putFile (cfg.slug ++ "/tools/" ++
              (sanitizeString (jsTrim nick) 20 ++ "-" ++
                sanitizeString (stripJsSuffix file.name) 30 ++ "-" ++
                generateRandomString 6 rand ++ ".js")) file.content
            ("Add sketch by " ++ jsTrim nick),
           .getFile (cfg.slug ++ "/manifest.json"),
           .putManifest (cfg.slug ++ "/manifest.json")
             (updateManifestWithTool m
               ⟨sanitizeString (jsTrim nick) 20 ++ "-" ++
                   sanitizeString (stripJsSuffix file.name) 30 ++ "-" ++
                   generateRandomString 6 rand,
                 jsTrim nick, jsTrim tn, jsTrim td, jsTrim mu,
                 "tools/" ++ (sanitizeString (jsTrim nick) 20 ++ "-" ++
                   sanitizeString (stripJsSuffix file.name) 30 ++ "-" ++
                   generateRandomString 6 rand ++ ".js"), now⟩).1
             (updateManifestWithTool m
               ⟨sanitizeString (jsTrim nick) 20 ++ "-" ++
                   sanitizeString (stripJsSuffix file.name) 30 ++ "-" ++
                   generateRandomString 6 rand,
                 jsTrim nick, jsTrim tn, jsTrim td, jsTrim mu,
                 "tools/" ++ (sanitizeString (jsTrim nick) 20 ++ "-" ++
                   sanitizeString (stripJsSuffix file.name) 30 ++ "-" ++
                   generateRandomString 6 rand ++ ".js"), now⟩).2],
          some ((updateManifestWithTool m
            ⟨sanitizeString (jsTrim nick) 20 ++ "-" ++
                sanitizeString (stripJsSuffix file.name) 30 ++ "-" ++
                generateRandomString 6 rand,
              jsTrim nick, jsTrim tn, jsTrim td, jsTrim mu,
              "tools/" ++ (sanitizeString (jsTrim nick) 20 ++ "-" ++
                sanitizeString (stripJsSuffix file.name) 30 ++ "-" ++
                generateRandomString 6 rand ++ ".js"), now⟩).1, nxt)⟩ := by
      simp [handleToolUpload, hemp]
    refine ⟨(updateManifestWithTool m
        ⟨sanitizeString (jsTrim nick) 20 ++ "-" ++
            sanitizeString (stripJsSuffix file.name) 30 ++ "-" ++
            generateRandomString 6 rand,
          jsTrim nick, jsTrim tn, jsTrim td, jsTrim mu,
          "tools/" ++ (sanitizeString (jsTrim nick) 20 ++ "-" ++
            sanitizeString (stripJsSuffix file.name) 30 ++ "-" ++
            generateRandomString 6 rand ++ ".js"), now⟩).1,
      ⟨sanitizeString (jsTrim nick) 20 ++ "-" ++
          sanitizeString (stripJsSuffix file.name) 30 ++ "-" ++
          generateRandomString 6 rand,
        jsTrim nick, jsTrim tn, jsTrim td, jsTrim mu,
        "tools/" ++ (sanitizeString (jsTrim nick) 20 ++ "-" ++
          sanitizeString (stripJsSuffix file.name) 30 ++ "-" ++
          generateRandomString 6 rand ++ ".js"), now⟩,
      storedToolsOf m, ?_, updateManifestWithTool_tools m _, ?_, rfl, ?_⟩
    · rw [hout]
    · rw [hout]
    · rw [hout]
      rfl
  · intro cfg d v nxt tid file rand now tool hvalid hfind
    have hemp : (validateOutputForm ⟨some tid, some file⟩).isEmpty = true := by
      rw [hvalid]
      rfl
    have hout : handleOutputUpload cfg ⟨some (d, v), false, false, false, nxt⟩
        ⟨some tid, some file⟩ rand now =
        ⟨200,
          .ok (sanitizeString (stripLastExt file.name) 30 ++ "-" ++
              generateRandomString 6 rand ++ "." ++ (mimeToExt file.mime).getD "undefined")
            (galleryUrl cfg),
          [.getFile (cfg.slug ++ "/manifest.json"),
           .putFile (cfg.slug ++ "/outputs/" ++
               (sanitizeString (stripLastExt file.name) 30 ++ "-" ++
                 generateRandomString 6 rand ++ "." ++
                 (mimeToExt file.mime).getD "undefined")) file.content
             ("Add output for " ++ tid),
           .getFile (cfg.slug ++ "/manifest.json"),
           .putManifest (cfg.slug ++ "/manifest.json")
             (updateManifestWithOutput (some (d, v))
               ⟨sanitizeString (stripLastExt file.name) 30 ++ "-" ++
                   generateRandomString 6 rand,
                 tid, tool.url,
                 "outputs/" ++ (sanitizeString (stripLastExt file.name) 30 ++ "-" ++
                   generateRandomString 6 rand ++ "." ++
                   (mimeToExt file.mime).getD "undefined"), now⟩).1
             (updateManifestWithOutput (some (d, v))
               ⟨sanitizeString (stripLastExt file.name) 30 ++ "-" ++
                   generateRandomString 6 rand,
                 tid, tool.url,
                 "outputs/" ++ (sanitizeString (stripLastExt file.name) 30 ++ "-" ++
                   generateRandomString 6 rand ++ "." ++
                   (mimeToExt file.mime).getD "undefined"), now⟩).2],
          some ((updateManifestWithOutput (some (d, v))
            ⟨sanitizeString (stripLastExt file.name) 30 ++ "-" ++
                generateRandomString 6 rand,
              tid, tool.url,
              "outputs/" ++ (sanitizeString (stripLastExt file.name) 30 ++ "-" ++
                generateRandomString 6 rand ++ "." ++
                (mimeToExt file.mime).getD "undefined"), now⟩).1, nxt)⟩ := by
      simp [handleOutputUpload, hemp, hfind]
    refine ⟨(updateManifestWithOutput (some (d, v))
        ⟨sanitizeString (stripLastExt file.name) 30 ++ "-" ++
            generateRandomString 6 rand,
          tid, tool.url,
          "outputs/" ++ (sanitizeString (stripLastExt file.name) 30 ++ "-" ++
            generateRandomString 6 rand ++ "." ++
            (mimeToExt file.mime).getD "undefined"), now⟩).1,
      ⟨sanitizeString (stripLastExt file.name) 30 ++ "-" ++
          generateRandomString 6 rand,
        tid, tool.url,
        "outputs/" ++ (sanitizeString (stripLastExt file.name) 30 ++ "-" ++
          generateRandomString 6 rand ++ "." ++
          (mimeToExt file.mime).getD "undefined"), now⟩,
      d.outputs.getD [], ?_, rfl, ?_, rfl, rfl, rfl, ?_⟩
    · rw [hout]
    · rw [hout]
    · rw [hout]
      rfl

/-- C10 witness: the coherence theorem applied to a concrete successful
tool upload and a concrete successful output upload. -/
theorem upload_success_coherence_witness :
    (∃ entry : ToolManifestEntry,
      (handleToolUpload cfg0 ⟨some (d0, "sha0"), false, false, false, "sha1"⟩
          form0 rand0 "now0").body = .ok (entry.id ++ ".js") (galleryUrl cfg0) ∧
        entry.url = "tools/" ++ (entry.id ++ ".js")) ∧
    (∃ entry : OutputManifestEntry,
      (handleOutputUpload cfg0 ⟨some (d0, "sha0"), false, false, false, "sha1"⟩
          outForm0 rand0 "now0").body =
        .ok (entry.id ++ "." ++ (mimeToExt img0.mime).getD "undefined") (galleryUrl cfg0) ∧
        entry.toolUrl = t0.url) := by
  constructor
  · obtain ⟨nd, entry, rest, h1, h2, h3, h4, h5⟩ :=
      upload_success_coherence.1 cfg0 (some (d0, "sha0")) "sha1"
        "Mixer" "Blends colors" "Bob Lee" "model-x" file0 rand0 "now0" (by decide)
    exact ⟨entry, h3, h4⟩
  · obtain ⟨nd, entry, rest, h1, h2, h3, h4, h5, h6, h7⟩ :=
      upload_success_coherence.2 cfg0 d0 "sha0" "sha1" "bob-paint-abc123" img0
        rand0 "now0" t0 (by decide) (by decide)
    exact ⟨entry, h3, h6⟩

/-- C8 (counterexample): with the configured allowed origin equal to the
empty string, a POST with a missing Origin header is not rejected with
403: the worker reads a missing header as the empty string, which then
equals the configured value, so the request is routed to the tool
handler instead. -/
theorem route_empty_origin_counterexample :
    route "POST" none "/upload/tool" "" = Routed.toolHandler := by decide

/-- C8 (amended): dispatch is ordered as in the source: OPTIONS yields
the 204 preflight; any other non-POST method yields 405 regardless of
origin, path or body; a POST whose Origin header, read as the empty
string when missing, differs from the configured allowed origin yields
403 before any form parsing is attempted (the route is a function of
method, origin and pathname only; the body is first touched inside the
handlers) — in particular a POST with a missing Origin header yields
403 whenever the configured allowed origin is non-empty; an
origin-accepted POST reaches the tool or output handler on the two
upload paths and yields 404 "Not found" on any other path. -/
theorem route_dispatch_characterization
    (method : String) (origin : Option String) (path allowed : String) :
    (route "OPTIONS" origin path allowed = .preflight ∧
        routedStatus .preflight = some (204, none)) ∧
      (method ≠ "OPTIONS" → method ≠ "POST" →
        route method origin path allowed = .methodNotAllowed ∧
          routedStatus .methodNotAllowed = some (405, some "Method not allowed")) ∧
      (origin.getD "" ≠ allowed →
        route "POST" origin path allowed = .forbidden ∧
          routedStatus .forbidden = some (403, some "Origin not allowed")) ∧
      (allowed ≠ "" → route "POST" none path allowed = .forbidden) ∧
      route "POST" (some allowed) "/upload/tool" allowed = .toolHandler ∧
      route "POST" (some allowed) "/upload/output" allowed = .outputHandler ∧
      (path ≠ "/upload/tool" → path ≠ "/upload/output" →
        route "POST" (some allowed) path allowed = .notFound ∧
          routedStatus .notFound = some (404, some "Not found")) := by
  refine ⟨⟨?_, rfl⟩, ?_, ?_, ?_, ?_, ?_, ?_⟩
  · unfold route
    rw [if_pos rfl]
  · intro h1 h2
    refine ⟨?_, rfl⟩
    unfold route
    rw [if_neg h1, if_pos h2]
  · intro h
    refine ⟨?_, rfl⟩
    unfold route
    rw [if_neg (by decide), if_neg (by decide), if_pos h]
  · intro h
    unfold route
    rw [if_neg (by decide), if_neg (by decide)]
    simp only [Option.getD_none]
    rw [if_pos (Ne.symm h)]
  · unfold route
    rw [if_neg (by decide), if_neg (by decide), if_neg (by simp), if_pos rfl]
  · unfold route
    rw [if_neg (by decide), if_neg (by decide), if_neg (by simp),
      if_neg (by decide), if_pos rfl]
  · intro hp1 hp2
    refine ⟨?_, rfl⟩
    unfold route
    rw [if_neg (by decide), if_neg (by decide), if_neg (by simp),
      if_neg hp1, if_neg hp2]

/-- C8 witness: a PUT to the upload path yields the 405 route regardless
of a valid origin, and a POST with a missing Origin header yields the
403 route under a non-empty configured origin. -/
theorem route_dispatch_characterization_witness :
    route "PUT" (some "https://example.org") "/upload/tool" "https://example.org" =
        Routed.methodNotAllowed ∧
      route "POST" none "/upload/tool" "https://example.org" = Routed.forbidden := by
  refine ⟨?_, ?_⟩
  · exact ((route_dispatch_characterization "PUT" (some "https://example.org")
      "/upload/tool" "https://example.org").2.1 (by decide) (by decide)).1
  · exact (route_dispatch_characterization "PUT" none
      "/upload/tool" "https://example.org").2.2.2.1 (by decide)
